import Mathlib

/-!
Verification of the outbound request orchestration layer of the
weini-lapian browser application (`src/services/gemini.ts`).

The TypeScript source is shallowly embedded: promises become `Except`
values, stateful browser APIs (the `window.fetch` override) become
explicit state passing, and the concurrency queue becomes a labelled
step relation on an explicit state record.  JavaScript strings are
modelled by Lean `String` (with `List Char` used internally where
suffix reasoning is needed), and JavaScript truthiness of strings and
optional strings is made explicit.
-/

namespace WeiniLapian

/-! ## String utilities mirroring the JavaScript operations used -/

/-- `isSubAt pat l` holds when `pat` occurs at the start of `l`
(list-level check used for both JS `startsWith` and, via `reverse`,
`endsWith`). -/
def isSubAt : List Char → List Char → Bool
  | [], _ => true
  | _ :: _, [] => false
  | c :: cs, d :: ds => c == d && isSubAt cs ds

/-- `hasSub pat l` holds when `pat` occurs contiguously anywhere in `l`;
this is JS `String.prototype.includes`. -/
def hasSub (pat : List Char) : List Char → Bool
  | [] => pat.isEmpty
  | d :: ds => isSubAt pat (d :: ds) || hasSub pat ds

/-- JS `a.includes(b)` on strings. -/
def strIncludes (s pat : String) : Bool := hasSub pat.data s.data

/-- Character-wise lower-casing of a character list (JS `toLowerCase`
restricted to the ASCII header names and URL schemes the code uses). -/
def lowerL (l : List Char) : List Char := l.map Char.toLower

/-- JS truthiness of an optional string parameter (`undefined` and `""`
are falsy). -/
def isTruthyOpt : Option String → Bool
  | none => false
  | some s => s ≠ ""

/-! ## Error model and retry controller (`withRetry`, gemini.ts 120-145)

A JavaScript error is modelled by its `message` and optional `status`
field, which is all `withRetry` inspects.  The wrapped async operation
is modelled by a function from the attempt index to its outcome, so a
"fails k times then succeeds" behaviour is a plain function.  The
returned record also reports how many times the operation was invoked
and the total of all backoff suspensions, so the claims about call
counts and elapsed delay are statable. -/

structure JsError where
  message : String
  status : Option Nat
deriving DecidableEq, Repr

/-- The rate-limit test on gemini.ts line 128. -/
def isQuotaError (e : JsError) : Bool :=
  strIncludes e.message "429" || strIncludes e.message "Quota" ||
  strIncludes e.message "RESOURCE_EXHAUSTED" || e.status == some 429

/-- The 5xx / overload test on gemini.ts line 129. -/
def isServerError (e : JsError) : Bool :=
  strIncludes e.message "500" || strIncludes e.message "502" ||
  strIncludes e.message "503" || strIncludes e.message "504" ||
  strIncludes e.message "Overloaded"

/-- An error is retried by `withRetry` exactly when one of the two
marker tests fires (gemini.ts line 133). -/
def retriableErr (e : JsError) : Bool := isQuotaError e || isServerError e

/-- Errors surfaced by `withRetry`: either the wrapped operation's own
error rethrown, or the unreachable-for-positive-retries generic
`"Retry failed"` thrown after the loop. -/
inductive RetryErr where
  | js (e : JsError)
  | retryFailed
deriving DecidableEq, Repr

/-- Outcome of a `withRetry` run: the settled result, the number of
invocations of the wrapped operation, and the total backoff delay in
milliseconds. -/
structure RetryResult (α : Type) where
  result : Except RetryErr α
  calls : Nat
  totalDelay : Nat
deriving Repr

/-- The loop body of `withRetry` (gemini.ts 123-143).  `i` is the JS
loop index, `cur` the current backoff delay, and `fuel` the number of
iterations left (`retries - i`), so the JS guard `i === retries - 1`
is `fuel = 1`, i.e. the inner fuel is `0`. -/
def withRetryGo {α : Type} (fn : Nat → Except JsError α) (i cur : Nat) :
    Nat → RetryResult α
  | 0 => ⟨.error .retryFailed, 0, 0⟩
  | fuel + 1 =>
    match fn i with
    | .ok a => ⟨.ok a, 1, 0⟩
    | .error e =>
      if fuel = 0 then ⟨.error (.js e), 1, 0⟩
      else if retriableErr e then
        let r := withRetryGo fn (i + 1) (cur * 2) fuel
        ⟨r.result, r.calls + 1, r.totalDelay + cur⟩
      else ⟨.error (.js e), 1, 0⟩

/-- `withRetry(fn, retries, initialDelay)` (gemini.ts 120). -/
def withRetry {α : Type} (fn : Nat → Except JsError α)
    (retries initialDelay : Nat) : RetryResult α :=
  withRetryGo fn 0 initialDelay retries

/-! ## Transport interceptor (`withAuthHeaderInjection`, gemini.ts 72-115)

An outgoing request is its URL string plus its header list.  JS
`Headers` lookup is case-insensitive on names, and `set` replaces any
existing entry of that (case-insensitive) name.  The patched fetch
installed on `window.fetch` is modelled per-request by `patchedFetch`:
it returns the request actually forwarded to the original transport.
The install/restore discipline is modelled by explicit state passing
over a `BrowserState` carrying the current `window.fetch` value. -/

structure Request where
  url : String
  headers : List (String × String)
deriving DecidableEq, Repr

/-- Case-insensitive header-name comparison (JS `Headers`). -/
def headerNameEq (a b : String) : Bool :=
  lowerL a.data == lowerL b.data

/-- JS `headers.has(name)`. -/
def headerHas (hs : List (String × String)) (name : String) : Bool :=
  hs.any fun p => headerNameEq p.1 name

/-- JS `headers.set(name, v)`: drop entries of that name, append the
new one. -/
def headerSet (hs : List (String × String)) (name v : String) :
    List (String × String) :=
  (hs.filter fun p => !headerNameEq p.1 name) ++ [(name, v)]

/-- `x.endsWith pat` at character-list level. -/
def endsWithL (l pat : List Char) : Bool := isSubAt pat.reverse l.reverse

/-- `baseUrl.replace(/^https?:\/\//, '').replace(/\/$/, '')`
(gemini.ts line 90): both regexes are case-sensitive; the second
strips exactly one trailing slash. -/
def normalizeBaseForMatch (b : String) : List Char :=
  let l := b.data
  let l1 := if isSubAt "https://".data l then l.drop 8
            else if isSubAt "http://".data l then l.drop 7
            else l
  if endsWithL l1 ['/'] then l1.take (l1.length - 1) else l1

/-- The interception test on gemini.ts 89-91: with a truthy base URL,
intercept when the request URL contains the normalized base; with no
truthy base URL, intercept every request. -/
def shouldIntercept (baseUrl : Option String) (urlStr : String) : Bool :=
  if isTruthyOpt baseUrl then
    hasSub (normalizeBaseForMatch (baseUrl.getD "")) urlStr.data
  else
    true

/-- Per-request behaviour of the patched `window.fetch`
(gemini.ts 86-108): the request handed to the original transport. -/
def patchedFetch (apiKey : String) (baseUrl : Option String)
    (req : Request) : Request :=
  if shouldIntercept baseUrl req.url then
    let hs0 := req.headers
    let hs1 := if headerHas hs0 "Authorization" then hs0
               else headerSet hs0 "Authorization" ("Bearer " ++ apiKey)
    let hs2 := if headerHas hs1 "x-goog-api-key" then hs1
               else headerSet hs1 "x-goog-api-key" apiKey
    { url := req.url, headers := hs2 }
  else
    req

/-- The value of `window.fetch`: either some pre-existing transport
(identified by a number) or the override closure, which captures the
key, the base URL and the transport it chains to. -/
inductive Transport where
  | base (id : Nat)
  | patched (apiKey : String) (baseUrl : Option String) (original : Transport)
deriving DecidableEq, Repr

/-- Browser-global state threaded through the interceptor: the current
`window.fetch` plus whatever other state (`σ`) the wrapped function
touches. -/
structure BrowserState (σ : Type) where
  fetchv : Transport
  inner : σ

/-- The guard on gemini.ts 77-78: patch when a truthy base URL is
configured or the key is proxy-shaped (`sk-` prefixed). -/
def needsPatch (apiKey : String) (baseUrl : Option String) : Bool :=
  isTruthyOpt baseUrl || isSubAt "sk-".data apiKey.data

/-- `withAuthHeaderInjection` (gemini.ts 72-115): when no patch is
needed, run `fn` directly; otherwise save `window.fetch`, install the
override, run `fn`, and restore the saved transport unconditionally
(the `finally` block), whether `fn` returned (`Except.ok`) or threw
(`Except.error`). -/
def withAuthHeaderInjection {σ α : Type} (apiKey : String)
    (baseUrl : Option String)
    (fn : BrowserState σ → Except JsError α × BrowserState σ)
    (s : BrowserState σ) : Except JsError α × BrowserState σ :=
  if !needsPatch apiKey baseUrl then
    fn s
  else
    let originalFetch := s.fetchv
    let s1 : BrowserState σ :=
      { s with fetchv := .patched apiKey baseUrl originalFetch }
    let rs := fn s1
    (rs.1, { rs.2 with fetchv := originalFetch })

/-! ## Endpoint resolution (`createAIClient`, gemini.ts 150-167)

The normalization pipeline on the optional base URL: trim, prefix
`https://` when the (case-insensitive) scheme test fails, strip one
trailing slash, then strip a trailing `/v1beta` and then `/v1` segment
(case-insensitive, optional trailing slash).  JS falsiness: an absent
or empty `baseUrl` yields no base URL at all, and a whitespace-only
one skips the normalization block, yielding the empty string.  The
character-list level is used so that suffix reasoning is tractable. -/

/-- JS whitespace test for `String.prototype.trim` (the ASCII cases). -/
def jsWhitespace (c : Char) : Bool :=
  c == ' ' || c == '\t' || c == '\n' || c == '\r' || c == '\x0b' || c == '\x0c'

/-- JS `b.trim()` at character-list level. -/
def jsTrim (l : List Char) : List Char :=
  ((l.dropWhile jsWhitespace).reverse.dropWhile jsWhitespace).reverse

/-- The case-insensitive scheme test `/^https?:\/\//i` (gemini.ts 154). -/
def schemeTest (l : List Char) : Bool :=
  isSubAt "http://".data (lowerL l) || isSubAt "https://".data (lowerL l)

/-- One JS `replace(/\/TOKEN\/?$/i, '')`: drop the version segment
(with or without a trailing slash) from the end, case-insensitively.
`pat` is the slash-prefixed lower-case token, e.g. `"/v1beta"`. -/
def stripVersionSuffix (pat : List Char) (l : List Char) : List Char :=
  if endsWithL (lowerL l) (pat ++ ['/']) then l.take (l.length - (pat.length + 1))
  else if endsWithL (lowerL l) pat then l.take (l.length - pat.length)
  else l

/-- `if (finalBaseUrl.endsWith('/')) finalBaseUrl.slice(0, -1)`
(gemini.ts 157-159). -/
def stripTrailingSlash (l : List Char) : List Char :=
  if endsWithL l ['/'] then l.take (l.length - 1) else l

/-- The normalization block of `createAIClient` on a trimmed,
nonempty base URL (gemini.ts 153-161). -/
def normalizePipeline (t : List Char) : List Char :=
  let u := if schemeTest t then t else "https://".data ++ t
  stripVersionSuffix "/v1".data
    (stripVersionSuffix "/v1beta".data (stripTrailingSlash u))

/-- `createAIClient` restricted to its observable output, the
effective base URL handed to the provider client (gemini.ts 150-167):
`none` models JS `undefined`. -/
def createAIClient (baseUrl : Option String) : Option String :=
  match baseUrl with
  | none => none
  | some b =>
    if b = "" then none
    else
      let t := jsTrim b.data
      if t.isEmpty then some ""
      else some (String.mk (normalizePipeline t))

/-! ## Image-response scanning (`generateImageWithNanoBanana`, gemini.ts 282-298)

A provider response part carries an optional text and an optional
inline-data payload; a candidate's `content?.parts` chain collapses to
one optional part list; `candidates` itself is optional.  The code
walks only `candidates[0]`, returning a `data:image/png;base64,` URI
for the first part whose `inlineData.data` is truthy (nonempty); when
none is found it throws the safety-refusal error if `response.text` is
truthy and the not-found error otherwise. -/

structure RespPart where
  text : Option String
  inlineData : Option String
deriving DecidableEq, Repr

structure Candidate where
  contentParts : Option (List RespPart)
deriving DecidableEq, Repr

structure GenResponse where
  candidates : Option (List Candidate)
deriving DecidableEq, Repr

/-- First part of a part list whose `inlineData.data` is truthy
(gemini.ts 285-289). -/
def firstInlineOfParts : List RespPart → Option String
  | [] => none
  | p :: ps =>
    match p.inlineData with
    | some d => if d ≠ "" then some d else firstInlineOfParts ps
    | none => firstInlineOfParts ps

/-- The inline datum the scan on gemini.ts 282-291 can find: only the
first candidate's parts are examined. -/
def scannedInline (r : GenResponse) : Option String :=
  match r.candidates with
  | some (c :: _) =>
    match c.contentParts with
    | some parts => firstInlineOfParts parts
    | none => none
  | _ => none

/-- Modelled from the library: the `@google/genai` `response.text`
getter, which joins the text parts of the first candidate and is
`undefined` when there are none.  Only its truthiness is used by the
code under verification. -/
def responseText (r : GenResponse) : Option String :=
  match r.candidates with
  | some (c :: _) =>
    match c.contentParts with
    | some parts =>
      let ts := parts.filterMap (fun p => p.text)
      if ts.isEmpty then none else some (String.join ts)
    | none => none
  | _ => none

/-- Truthiness of `response.text` (an empty joined text is falsy). -/
def responseTextTruthy (r : GenResponse) : Bool :=
  isTruthyOpt (responseText r)

/-- The result-extraction tail of `generateImageWithNanoBanana`
(gemini.ts 282-298). -/
def scanImageResponse (r : GenResponse) : Except JsError String :=
  match scannedInline r with
  | some d => .ok ("data:image/png;base64," ++ d)
  | none =>
    if responseTextTruthy r then
      .error ⟨"模型拒绝生成图片 (安全拦截)", none⟩
    else
      .error ⟨"响应中未找到图片数据", none⟩

/-- Does any part of any candidate of the response carry truthy
inline image data?  (What the spec claims the scan covers.) -/
def anyCandidateHasInline (r : GenResponse) : Bool :=
  match r.candidates with
  | some cs =>
    cs.any fun c =>
      match c.contentParts with
      | some parts => (firstInlineOfParts parts).isSome
      | none => false
  | none => false

/-! ## Concurrency limiter (`RequestQueue`, gemini.ts 13-58)

The queue is a labelled transition system over an explicit state: the
`active` counter, the FIFO `waiting` list, the identifiers of running
tasks, the settled tasks with their own outcome, and the number of
pending `setTimeout` callbacks scheduled by the `finally` block
(each completed task schedules exactly one `next()` call).  Events:

* `enqueue tid` — `add()`: run immediately when `active < concurrency`,
  else append to the FIFO list;
* `complete tid ok` — a running task settles (resolving or rejecting to
  its own caller), decrementing `active` and scheduling one timer;
* `tick` — a scheduled `next()` fires: when `active < concurrency` and
  the list is nonempty, dispatch its head.

Single-threaded JS makes each of these atomic. -/

structure QueueState where
  active : Nat
  waiting : List Nat
  running : List Nat
  settled : List (Nat × Bool)
  timers : Nat
  enqueuedIds : List Nat
deriving DecidableEq, Repr

inductive QEvent where
  | enqueue (tid : Nat)
  | complete (tid : Nat) (ok : Bool)
  | tick
deriving DecidableEq, Repr

def qInit : QueueState := ⟨0, [], [], [], 0, []⟩

/-- One atomic event of the queue; `none` when the event is not
enabled (a task cannot complete unless running, a timer cannot fire
unless scheduled). -/
def qstep (C : Nat) (s : QueueState) : QEvent → Option QueueState
  | .enqueue tid =>
    if s.active < C then
      some { s with active := s.active + 1, running := s.running ++ [tid],
                    enqueuedIds := s.enqueuedIds ++ [tid] }
    else
      some { s with waiting := s.waiting ++ [tid],
                    enqueuedIds := s.enqueuedIds ++ [tid] }
  | .complete tid ok =>
    if tid ∈ s.running then
      some { s with running := s.running.erase tid, active := s.active - 1,
                    settled := s.settled ++ [(tid, ok)],
                    timers := s.timers + 1 }
    else none
  | .tick =>
    if s.timers = 0 then none
    else
      if s.active < C then
        match s.waiting with
        | [] => some { s with timers := s.timers - 1 }
        | w :: ws =>
          some { s with timers := s.timers - 1, active := s.active + 1,
                        running := s.running ++ [w], waiting := ws }
      else some { s with timers := s.timers - 1 }

/-- Run a whole event trace from a state. -/
def qrun (C : Nat) : QueueState → List QEvent → Option QueueState
  | s, [] => some s
  | s, e :: es =>
    match qstep C s e with
    | none => none
    | some s1 => qrun C s1 es

/-- A state with no running task and no pending timer: nothing the
queue scheduled is still outstanding. -/
def quiescent (s : QueueState) : Prop := s.running = [] ∧ s.timers = 0

/-! ## Provider client facade (gemini.ts 172-179, 250-257)

Both exported operations guard on JS-falsy credentials and then hand a
task to the single module-level queue, wrapped in `withRetry` with
per-call-site parameters.  The facade's observable decision — reject
immediately versus enqueue on which queue with which retry
configuration — is what the claims are about. -/

structure RequestQueueConfig where
  concurrency : Nat
  timeBetweenRequests : Nat
deriving DecidableEq, Repr

/-- The single module-level queue (gemini.ts 62):
`new RequestQueue(1, 1500)`. -/
def apiQueue : RequestQueueConfig := ⟨1, 1500⟩

inductive FacadeCall where
  | rejected (message : String)
  | enqueued (queue : RequestQueueConfig) (retries initialDelay : Nat)
deriving DecidableEq, Repr

/-- The credential-configuration error message thrown by both
operations (gemini.ts 174 and 252). -/
def missingCredsMsg : String := "请在设置中配置 API Key 或 Base URL"

/-- The orchestration skeleton of `analyzeFrameWithGemini`
(gemini.ts 172-178, 244): guard on falsy credentials, else enqueue on
`apiQueue` under `withRetry(·, 5, 2000)`. -/
def analyzeFrameWithGemini (base64Image apiKey : String)
    (baseUrl : Option String) : FacadeCall :=
  if apiKey = "" && !isTruthyOpt baseUrl then .rejected missingCredsMsg
  else .enqueued apiQueue 5 2000

/-- The orchestration skeleton of `generateImageWithNanoBanana`
(gemini.ts 250-256, 306): guard on falsy credentials, else enqueue on
`apiQueue` under `withRetry(·, 3, 2000)`. -/
def generateImageWithNanoBanana (prompt apiKey : String)
    (baseUrl : Option String) : FacadeCall :=
  if apiKey = "" && !isTruthyOpt baseUrl then .rejected missingCredsMsg
  else .enqueued apiQueue 3 2000

/-! ## Theorems: retry controller (claims C4, C5, C6) -/

/-- Helper: when the first attempt fails non-retriably, the loop
rethrows at once, for any positive fuel. -/
theorem withRetryGo_first_nonretriable {α : Type} (fn : Nat → Except JsError α)
    (e : JsError) (i cur fuel : Nat) (hfuel : 0 < fuel)
    (hfn : fn i = .error e) (hnr : retriableErr e = false) :
    withRetryGo fn i cur fuel = ⟨.error (.js e), 1, 0⟩ := by
  cases fuel with
  | zero => exact absurd hfuel (by simp)
  | succ k =>
    cases k with
    | zero => simp [withRetryGo, hfn]
    | succ k1 => simp [withRetryGo, hfn, hnr]

/-- C4: an operation failing with a non-retriable error (no rate-limit,
5xx or overload marker) on its first attempt is rethrown immediately by
`withRetry`: the wrapped function is invoked exactly once and the total
suspension delay is zero, for every positive configured attempt count. -/
theorem withRetry_nonretriable_rethrows_immediately {α : Type}
    (fn : Nat → Except JsError α) (e : JsError) (retries d : Nat)
    (hr : 0 < retries) (hfn : fn 0 = .error e)
    (hnr : retriableErr e = false) :
    withRetry fn retries d = ⟨.error (.js e), 1, 0⟩ :=
  withRetryGo_first_nonretriable fn e 0 d retries hr hfn hnr

/-- Witness for C4 at a concrete auth-style failure with `maxAttempts = 5`. -/
theorem withRetry_nonretriable_rethrows_immediately_witness :
    (0 : Nat) < 5 ∧
    retriableErr ⟨"API key not valid", none⟩ = false ∧
    withRetry (fun _ => (.error ⟨"API key not valid", none⟩ : Except JsError Nat))
        5 2000 = ⟨.error (.js ⟨"API key not valid", none⟩), 1, 0⟩ :=
  ⟨by decide, by decide,
   withRetry_nonretriable_rethrows_immediately
     (fun _ => (.error ⟨"API key not valid", none⟩ : Except JsError Nat))
     ⟨"API key not valid", none⟩ 5 2000 (by decide) rfl (by decide)⟩

/-- C5 counterexample: the browser network-failure message
`"Failed to fetch"` carries none of the markers `withRetry` tests for,
so the classification marks it non-retriable and `withRetry` rethrows
it at once — one invocation, zero delay — even though four attempts
remain. -/
theorem network_error_not_retriable_counterexample :
    retriableErr ⟨"Failed to fetch", none⟩ = false ∧
    withRetry (fun _ => (.error ⟨"Failed to fetch", none⟩ : Except JsError Nat))
        5 2000 = ⟨.error (.js ⟨"Failed to fetch", none⟩), 1, 0⟩ :=
  ⟨by decide, rfl⟩

/-- C5 amended: an error whose message is a network-failure marker
(`"Failed to fetch"`, a dropped connection) is NOT classified
retriable — only rate-limit and 5xx/overload markers are — so
`withRetry` rethrows it immediately with zero suspension delay and a
single invocation, no matter how many attempts remain. -/
theorem withRetry_network_failure_rethrows {α : Type}
    (fn : Nat → Except JsError α) (retries d : Nat) (hr : 0 < retries)
    (hfn : fn 0 = .error ⟨"Failed to fetch", none⟩) :
    withRetry fn retries d =
      ⟨.error (.js ⟨"Failed to fetch", none⟩), 1, 0⟩ :=
  withRetryGo_first_nonretriable fn ⟨"Failed to fetch", none⟩ 0 d retries
    hr hfn (by decide)

/-- Witness for the amended C5 at `maxAttempts = 3`. -/
theorem withRetry_network_failure_rethrows_witness :
    (0 : Nat) < 3 ∧
    withRetry (fun _ => (.error ⟨"Failed to fetch", none⟩ : Except JsError Nat))
        3 2000 = ⟨.error (.js ⟨"Failed to fetch", none⟩), 1, 0⟩ :=
  ⟨by decide,
   withRetry_network_failure_rethrows
     (fun _ => (.error ⟨"Failed to fetch", none⟩ : Except JsError Nat))
     3 2000 (by decide) rfl⟩

/-- Helper: one unfolding step of the loop on a retriable failure with
at least two iterations left. -/
theorem withRetryGo_step_retriable {α : Type} (fn : Nat → Except JsError α)
    (e : JsError) (i cur m : Nat)
    (h0 : fn i = .error e) (he : retriableErr e = true) :
    withRetryGo fn i cur (m + 2) =
      ⟨(withRetryGo fn (i + 1) (cur * 2) (m + 1)).result,
       (withRetryGo fn (i + 1) (cur * 2) (m + 1)).calls + 1,
       (withRetryGo fn (i + 1) (cur * 2) (m + 1)).totalDelay + cur⟩ := by
  simp [withRetryGo, h0, he]

/-- Helper for C6: with retriable failures on every attempt before the
last and success on the last, the loop returns the success, makes
`fuel` calls, and accumulates the doubling backoff sum. -/
theorem withRetryGo_fails_then_succeeds {α : Type}
    (fn : Nat → Except JsError α) (e : JsError) (v : α)
    (he : retriableErr e = true) :
    ∀ fuel i cur, 0 < fuel → (∀ j, j < fuel - 1 → fn (i + j) = .error e) →
    fn (i + (fuel - 1)) = .ok v →
    withRetryGo fn i cur fuel =
      ⟨.ok v, fuel, Finset.sum (Finset.range (fuel - 1)) fun j => cur * 2 ^ j⟩ := by
  intro fuel
  induction fuel with
  | zero => intro i cur h; exact absurd h (by simp)
  | succ n ih =>
    intro i cur _ hfail hok
    cases n with
    | zero =>
      simp only [Nat.add_sub_cancel, Nat.add_zero] at hok
      simp [withRetryGo, hok]
    | succ m =>
      have h0 : fn i = .error e := by
        have := hfail 0 (by omega)
        simpa using this
      have hrec := ih (i + 1) (cur * 2) (by omega)
        (fun j hj => by
          have := hfail (j + 1) (by omega)
          simpa [Nat.add_assoc, Nat.add_comm 1 j] using this)
        (by
          have : i + 1 + (m + 1 - 1) = i + (m + 1 + 1 - 1) := by omega
          rw [this]; exact hok)
      rw [show m + 1 + 1 = m + 2 from rfl,
        withRetryGo_step_retriable fn e i cur m h0 he, hrec]
      show (⟨.ok v, m + 1 + 1,
              (Finset.sum (Finset.range (m + 1 - 1)) fun j => cur * 2 * 2 ^ j) +
                cur⟩ : RetryResult α) =
        ⟨.ok v, m + 2, Finset.sum (Finset.range (m + 2 - 1)) fun j => cur * 2 ^ j⟩
      rw [show m + 1 - 1 = m from rfl, show m + 2 - 1 = m + 1 from rfl]
      have hcong :
          (Finset.sum (Finset.range m) fun j => cur * 2 ^ (j + 1)) =
            Finset.sum (Finset.range m) fun j => cur * 2 * 2 ^ j :=
        Finset.sum_congr rfl fun j _ => by ring
      rw [Finset.sum_range_succ' (fun j => cur * 2 ^ j) m, hcong, pow_zero,
        mul_one]

/-- C6: an operation failing with a `SERVER_ERROR`-classified
(retriable) error on the first `N-1` attempts and succeeding on attempt
`N` makes `withRetry(fn, N, d)` return the success after exactly `N`
sequential invocations, with total suspension equal to the exponential
backoff sum `d + 2d + 4d + ...` over the `N-1` failed attempts. -/
theorem withRetry_server_errors_backoff_sum {α : Type}
    (fn : Nat → Except JsError α) (e : JsError) (v : α) (N d : Nat)
    (hN : 0 < N) (hserver : isServerError e = true)
    (hfail : ∀ j, j < N - 1 → fn j = .error e) (hok : fn (N - 1) = .ok v) :
    withRetry fn N d =
      ⟨.ok v, N, Finset.sum (Finset.range (N - 1)) fun j => d * 2 ^ j⟩ := by
  have he : retriableErr e = true := by simp [retriableErr, hserver]
  have := withRetryGo_fails_then_succeeds fn e v he N 0 d hN
    (fun j hj => by simpa using hfail j hj) (by simpa using hok)
  simpa [withRetry] using this

/-- Witness for C6: two `503 Overloaded` failures then success, with
`N = 3`, `d = 2000`; the total suspension is `2000 + 4000`. -/
theorem withRetry_server_errors_backoff_sum_witness :
    (0 : Nat) < 3 ∧
    isServerError ⟨"503 Overloaded", none⟩ = true ∧
    withRetry
        (fun i => if i < 2 then .error ⟨"503 Overloaded", none⟩ else .ok 42)
        3 2000 =
      ⟨.ok 42, 3, Finset.sum (Finset.range 2) fun j => 2000 * 2 ^ j⟩ :=
  ⟨by decide, by decide,
   withRetry_server_errors_backoff_sum
     (fun i => if i < 2 then .error ⟨"503 Overloaded", none⟩ else .ok 42)
     ⟨"503 Overloaded", none⟩ 42 3 2000 (by decide) (by decide)
     (by
        intro j hj
        have hcase : j = 0 ∨ j = 1 := by omega
        rcases hcase with rfl | rfl <;> rfl)
     rfl⟩

/-! ## Theorems: transport interceptor scope (claim C2) -/

/-- C2: whenever `withAuthHeaderInjection` installs the `window.fetch`
override (the patch guard fires), the original transport is restored
after the wrapped function settles — on the normal-return path and on
the throwing path alike, and even if the wrapped function itself
reassigned `window.fetch` — because the `finally`-modelled restore is
unconditional. -/
theorem withAuthHeaderInjection_restores_fetch {σ α : Type}
    (apiKey : String) (baseUrl : Option String)
    (fn : BrowserState σ → Except JsError α × BrowserState σ)
    (s : BrowserState σ) (h : needsPatch apiKey baseUrl = true) :
    (withAuthHeaderInjection apiKey baseUrl fn s).2.fetchv = s.fetchv := by
  simp [withAuthHeaderInjection, h]

/-- Witness for C2: a proxy-shaped key with no base URL installs the
override; the wrapped function both clobbers `window.fetch` and
throws, and the prior transport is still restored. -/
theorem withAuthHeaderInjection_restores_fetch_witness :
    needsPatch "sk-x" none = true ∧
    (withAuthHeaderInjection (σ := Unit) (α := Nat) "sk-x" none
        (fun st => (.error ⟨"boom", none⟩, { st with fetchv := .base 99 }))
        ⟨.base 7, ()⟩).2.fetchv = Transport.base 7 :=
  ⟨by decide,
   withAuthHeaderInjection_restores_fetch "sk-x" none
     (fun st => (.error ⟨"boom", none⟩, { st with fetchv := .base 99 }))
     ⟨.base 7, ()⟩ (by decide)⟩

/-! ## Theorems: facade credential guard (claim C3) -/

/-- C3: when both the raw API key and the raw base URL are empty
(JS-falsy), both exported operations reject immediately with the
configuration error — no task is handed to the queue, so no retry
controller run and no network request occurs — and that error carries
none of the retriable markers, so it is non-retriable. -/
theorem facade_rejects_empty_credentials (img prompt apiKey : String)
    (baseUrl : Option String) (hk : apiKey = "")
    (hb : isTruthyOpt baseUrl = false) :
    analyzeFrameWithGemini img apiKey baseUrl = .rejected missingCredsMsg ∧
    generateImageWithNanoBanana prompt apiKey baseUrl =
      .rejected missingCredsMsg ∧
    retriableErr ⟨missingCredsMsg, none⟩ = false := by
  subst hk
  refine ⟨?_, ?_, by decide⟩ <;>
    simp [analyzeFrameWithGemini, generateImageWithNanoBanana, hb]

/-- Witness for C3 at empty key and empty base URL. -/
theorem facade_rejects_empty_credentials_witness :
    analyzeFrameWithGemini "img" "" (some "") = .rejected missingCredsMsg ∧
    generateImageWithNanoBanana "p" "" (some "") =
      .rejected missingCredsMsg ∧
    retriableErr ⟨missingCredsMsg, none⟩ = false :=
  facade_rejects_empty_credentials "img" "p" "" (some "") rfl (by decide)

/-! ## Theorems: header injection targeting (claim C1) -/

/-- Helper: after `headers.set(name, v)`, `headers.has(name)` holds. -/
theorem headerHas_headerSet_self (hs : List (String × String))
    (name v : String) : headerHas (headerSet hs name v) name = true := by
  simp [headerHas, headerSet, headerNameEq]

/-- Helper: filtering out entries whose name matches `n` does not
change whether some entry's name matches an `m` that differs from `n`
case-insensitively. -/
theorem any_filter_out_other_name (hs : List (String × String))
    (n m : String) (h : headerNameEq n m = false) :
    ((hs.filter fun p => !headerNameEq p.1 n).any fun p =>
        headerNameEq p.1 m) =
      hs.any fun p => headerNameEq p.1 m := by
  induction hs with
  | nil => rfl
  | cons p hs ih =>
    by_cases hp : headerNameEq p.1 n = true
    · have hpm : headerNameEq p.1 m = false := by
        simp only [headerNameEq, beq_iff_eq] at hp
        simp only [headerNameEq, beq_eq_false_iff_ne, ne_eq] at h ⊢
        intro hc
        exact h (hp.symm.trans hc)
      simp [List.filter_cons, hp, hpm, ih]
    · have hp' : headerNameEq p.1 n = false := by simpa using hp
      simp [List.filter_cons, hp', ih]

/-- Helper: `headers.set` with one name does not disturb `has` for a
name that differs case-insensitively. -/
theorem headerHas_headerSet_other (hs : List (String × String))
    (n v m : String) (h : headerNameEq n m = false) :
    headerHas (headerSet hs n v) m = headerHas hs m := by
  simp only [headerSet, headerHas, List.any_append, List.any_cons,
    List.any_nil]
  rw [any_filter_out_other_name hs n m h]
  simp [h]

/-- C1 counterexample: with a proxy-shaped key (`sk-` prefixed) and no
base URL, a request to a host that is not the provider's default host
(`generativelanguage.googleapis.com`) is intercepted anyway — both
authentication headers are injected — contradicting the claim that
such requests are left untouched. -/
theorem proxyKey_no_baseUrl_intercepts_unrelated_host :
    strIncludes "https://other.example/v1/models"
        "generativelanguage.googleapis.com" = false ∧
    patchedFetch "sk-abc" none ⟨"https://other.example/v1/models", []⟩ =
      ⟨"https://other.example/v1/models",
       [("Authorization", "Bearer sk-abc"), ("x-goog-api-key", "sk-abc")]⟩ :=
  ⟨by decide, rfl⟩

/-- C1 amended: while the override is active, a request is intercepted
iff its URL contains the scheme-and-trailing-slash-stripped base URL
when a truthy base URL is configured — and unconditionally (every
request, whatever its host) when none is.  An intercepted request
keeps its URL and ends up carrying both authentication header names;
a non-intercepted request passes through unmodified. -/
theorem patchedFetch_target_characterization (apiKey : String)
    (baseUrl : Option String) (req : Request) :
    (shouldIntercept baseUrl req.url = false →
        patchedFetch apiKey baseUrl req = req) ∧
    (shouldIntercept baseUrl req.url = true →
        (patchedFetch apiKey baseUrl req).url = req.url ∧
        headerHas (patchedFetch apiKey baseUrl req).headers "Authorization" =
          true ∧
        headerHas (patchedFetch apiKey baseUrl req).headers "x-goog-api-key" =
          true) ∧
    (isTruthyOpt baseUrl = false → shouldIntercept baseUrl req.url = true) ∧
    (∀ b, baseUrl = some b → isTruthyOpt baseUrl = true →
        shouldIntercept baseUrl req.url =
          hasSub (normalizeBaseForMatch b) req.url.data) := by
  refine ⟨fun h => ?_, fun h => ?_, fun h => ?_, fun b hb h => ?_⟩
  · simp [patchedFetch, h]
  · have hauth :
        headerHas
          (if headerHas req.headers "Authorization" then req.headers
           else headerSet req.headers "Authorization" ("Bearer " ++ apiKey))
          "Authorization" = true := by
      by_cases hh : headerHas req.headers "Authorization" = true
      · simp [hh]
      · simp only [Bool.not_eq_true] at hh
        simp [hh, headerHas_headerSet_self]
    refine ⟨by simp [patchedFetch, h], ?_, ?_⟩
    · simp only [patchedFetch, h, if_true]
      by_cases hg :
          headerHas
            (if headerHas req.headers "Authorization" then req.headers
             else headerSet req.headers "Authorization" ("Bearer " ++ apiKey))
            "x-goog-api-key" = true
      · simpa [hg] using hauth
      · simp only [Bool.not_eq_true] at hg
        rw [if_neg (by simp [hg])]
        rw [headerHas_headerSet_other _ _ _ _ (by decide)]
        exact hauth
    · simp only [patchedFetch, h, if_true]
      by_cases hg :
          headerHas
            (if headerHas req.headers "Authorization" then req.headers
             else headerSet req.headers "Authorization" ("Bearer " ++ apiKey))
            "x-goog-api-key" = true
      · simp [hg]
      · simp only [Bool.not_eq_true] at hg
        rw [if_neg (by simp [hg])]
        exact headerHas_headerSet_self _ _ _
  · simp [shouldIntercept, h]
  · subst hb
    simp [shouldIntercept, h]

/-- Witness for the amended C1: with base URL
`https://proxy.example`, a request to an unrelated host passes through
unmodified while a request to the proxy receives the `Authorization`
header; with no base URL every request is intercepted. -/
theorem patchedFetch_target_characterization_witness :
    patchedFetch "k" (some "https://proxy.example")
        ⟨"https://unrelated.example/x", [("a", "b")]⟩ =
      ⟨"https://unrelated.example/x", [("a", "b")]⟩ ∧
    headerHas
        (patchedFetch "k" (some "https://proxy.example")
            ⟨"https://proxy.example/v1/chat", []⟩).headers
        "Authorization" = true ∧
    shouldIntercept none "https://anywhere.example/y" = true :=
  ⟨(patchedFetch_target_characterization "k" (some "https://proxy.example")
      ⟨"https://unrelated.example/x", [("a", "b")]⟩).1 (by decide),
   ((patchedFetch_target_characterization "k" (some "https://proxy.example")
      ⟨"https://proxy.example/v1/chat", []⟩).2.1 (by decide)).2.1,
   (patchedFetch_target_characterization "k" none
      ⟨"https://anywhere.example/y", []⟩).2.2.1 (by decide)⟩

/-! ## Theorems: image-response scanning (claim C9) -/

/-- Helper: the inline scan only returns truthy (nonempty) data. -/
theorem firstInlineOfParts_ne_empty :
    ∀ (ps : List RespPart) (d : String),
      firstInlineOfParts ps = some d → d ≠ "" := by
  intro ps
  induction ps with
  | nil => intro d h; simp [firstInlineOfParts] at h
  | cons p ps ih =>
    intro d h
    cases hp : p.inlineData with
    | none =>
      simp only [firstInlineOfParts, hp] at h
      exact ih d h
    | some e =>
      simp only [firstInlineOfParts, hp] at h
      by_cases he : e = ""
      · subst he
        simp at h
        exact ih d h
      · simp [he] at h
        subst h
        exact he

/-- Helper: `scannedInline` only returns truthy data. -/
theorem scannedInline_ne_empty (r : GenResponse) (d : String)
    (h : scannedInline r = some d) : d ≠ "" := by
  cases hc : r.candidates with
  | none => simp [scannedInline, hc] at h
  | some cs =>
    cases cs with
    | nil => simp [scannedInline, hc] at h
    | cons c cs =>
      cases hp : c.contentParts with
      | none => simp [scannedInline, hc, hp] at h
      | some parts =>
        simp only [scannedInline, hc, hp] at h
        exact firstInlineOfParts_ne_empty parts d h

/-- C9 counterexample: a response whose second candidate carries inline
image data but whose first candidate carries only text makes
`generateImageWithNanoBanana` throw the safety-refusal error instead of
returning the data URI `data:image/png;base64,IMG64` that the claim
("across all returned candidates") requires. -/
theorem scanImage_second_candidate_ignored_counterexample :
    anyCandidateHasInline
        ⟨some [⟨some [⟨some "no", none⟩]⟩, ⟨some [⟨none, some "IMG64"⟩]⟩]⟩ =
      true ∧
    scanImageResponse
        ⟨some [⟨some [⟨some "no", none⟩]⟩, ⟨some [⟨none, some "IMG64"⟩]⟩]⟩ =
      .error ⟨"模型拒绝生成图片 (安全拦截)", none⟩ :=
  ⟨rfl, rfl⟩

/-- C9 amended: the scan covers only the FIRST candidate.  When the
first candidate contains a part with truthy inline image data, the
result is a data URI built from the first such datum; when it does not
— even if later candidates contain images, which are ignored — the
call fails, with the safety-refusal error when refusal text is present
and the malformed-response error otherwise; a successful result is
always a nonempty data URI, never an empty success. -/
theorem scanImageResponse_first_candidate_characterization
    (r : GenResponse) :
    (∀ d, scannedInline r = some d →
        scanImageResponse r = .ok ("data:image/png;base64," ++ d)) ∧
    (scannedInline r = none →
        scanImageResponse r =
          .error (if responseTextTruthy r
                  then ⟨"模型拒绝生成图片 (安全拦截)", none⟩
                  else ⟨"响应中未找到图片数据", none⟩)) ∧
    (∀ s, scanImageResponse r = .ok s →
        ∃ d, scannedInline r = some d ∧ d ≠ "" ∧
          s = "data:image/png;base64," ++ d) ∧
    (∀ c rest rest',
        scanImageResponse ⟨some (c :: rest)⟩ =
          scanImageResponse ⟨some (c :: rest')⟩) := by
  refine ⟨fun d hd => ?_, fun h => ?_, fun s hs => ?_, fun c rest rest' => ?_⟩
  · simp [scanImageResponse, hd]
  · by_cases ht : responseTextTruthy r <;> simp [scanImageResponse, h, ht]
  · cases hinl : scannedInline r with
    | some d =>
      refine ⟨d, rfl, scannedInline_ne_empty r d hinl, ?_⟩
      simp only [scanImageResponse, hinl] at hs
      cases hs
      rfl
    | none =>
      simp only [scanImageResponse, hinl] at hs
      by_cases ht : responseTextTruthy r
      · rw [if_pos ht] at hs; cases hs
      · rw [if_neg ht] at hs; cases hs
  · match hp : c.contentParts with
    | none =>
      simp [scanImageResponse, scannedInline, responseTextTruthy,
        responseText, hp]
    | some parts =>
      simp [scanImageResponse, scannedInline, responseTextTruthy,
        responseText, hp]

/-- Witness for the amended C9: a single-candidate response with inline
data `"AAA"` yields the corresponding data URI. -/
theorem scanImageResponse_first_candidate_characterization_witness :
    scanImageResponse ⟨some [⟨some [⟨none, some "AAA"⟩]⟩]⟩ =
      .ok "data:image/png;base64,AAA" :=
  (scanImageResponse_first_candidate_characterization
      ⟨some [⟨some [⟨none, some "AAA"⟩]⟩]⟩).1 "AAA" rfl

/-! ## Theorems: endpoint resolution (claim C8) -/

/-- Helper: a list starts with itself plus anything. -/
theorem isSubAt_append_self (p r : List Char) :
    isSubAt p (p ++ r) = true := by
  induction p with
  | nil => rfl
  | cons c cs ih => simp [isSubAt, ih]

/-- Helper: any `take` of a list is an initial segment of it. -/
theorem isSubAt_take_self (l : List Char) :
    ∀ j, isSubAt (l.take j) l = true := by
  induction l with
  | nil => intro j; simp [isSubAt]
  | cons c cs ih =>
    intro j
    cases j with
    | zero => rfl
    | succ j => simp [isSubAt, ih j]

/-- Helper: a verified start decomposes the list. -/
theorem isSubAt_decomp :
    ∀ p l : List Char, isSubAt p l = true → l = p ++ l.drop p.length := by
  intro p
  induction p with
  | nil => intro l _; simp
  | cons c cs ih =>
    intro l h
    cases l with
    | nil => simp [isSubAt] at h
    | cons d ds =>
      simp only [isSubAt, Bool.and_eq_true, beq_iff_eq] at h
      obtain ⟨rfl, h2⟩ := h
      simpa using ih ds h2

/-- Helper: the trailing-slash strip is a `take`. -/
theorem stripTrailingSlash_is_take (l : List Char) :
    ∃ j, stripTrailingSlash l = l.take j := by
  unfold stripTrailingSlash
  by_cases h : endsWithL l ['/'] = true
  · exact ⟨l.length - 1, by rw [if_pos h]⟩
  · exact ⟨l.length, by rw [if_neg h, List.take_length]⟩

/-- Helper: a version-suffix strip is a `take`. -/
theorem stripVersionSuffix_is_take (pat l : List Char) :
    ∃ j, stripVersionSuffix pat l = l.take j := by
  unfold stripVersionSuffix
  by_cases h1 : endsWithL (lowerL l) (pat ++ ['/']) = true
  · exact ⟨l.length - (pat.length + 1), by rw [if_pos h1]⟩
  · by_cases h2 : endsWithL (lowerL l) pat = true
    · exact ⟨l.length - pat.length, by rw [if_neg h1, if_pos h2]⟩
    · exact ⟨l.length, by rw [if_neg h1, if_neg h2, List.take_length]⟩

/-- Helper: the whole normalization pipeline truncates the
scheme-completed URL: it equals some `take` of it. -/
theorem normalizePipeline_is_take (t : List Char) :
    ∃ j, normalizePipeline t =
      (if schemeTest t then t else "https://".data ++ t).take j := by
  unfold normalizePipeline
  obtain ⟨j1, h1⟩ :=
    stripTrailingSlash_is_take (if schemeTest t then t else "https://".data ++ t)
  obtain ⟨j2, h2⟩ := stripVersionSuffix_is_take "/v1beta".data
    (stripTrailingSlash (if schemeTest t then t else "https://".data ++ t))
  obtain ⟨j3, h3⟩ := stripVersionSuffix_is_take "/v1".data
    (stripVersionSuffix "/v1beta".data
      (stripTrailingSlash (if schemeTest t then t else "https://".data ++ t)))
  refine ⟨min (min j3 j2) j1, ?_⟩
  rw [h3, h2, h1, List.take_take, List.take_take]

/-- Helper: lower-casing the scheme-completed URL yields a scheme
followed by a remainder. -/
theorem lowered_scheme_decomp (t : List Char) :
    (∃ m, lowerL (if schemeTest t then t else "https://".data ++ t) =
        "http://".data ++ m) ∨
    (∃ m, lowerL (if schemeTest t then t else "https://".data ++ t) =
        "https://".data ++ m) := by
  by_cases hs : schemeTest t = true
  · rw [if_pos hs]
    unfold schemeTest at hs
    rcases Bool.or_eq_true_iff.mp hs with h | h
    · exact .inl ⟨(lowerL t).drop ("http://".data.length),
        isSubAt_decomp _ _ h⟩
    · exact .inr ⟨(lowerL t).drop ("https://".data.length),
        isSubAt_decomp _ _ h⟩
  · rw [if_neg hs]
    refine .inr ⟨lowerL t, ?_⟩
    show List.map Char.toLower ("https://".data ++ t) = _
    rw [List.map_append]
    rfl

/-- Helper: a `take` of `scheme ++ m` either still starts with the
scheme or is an initial segment of the scheme. -/
theorem take_scheme_cases (p m : List Char) (j : Nat) :
    isSubAt p ((p ++ m).take j) = true ∨
    isSubAt ((p ++ m).take j) p = true := by
  by_cases h : p.length ≤ j
  · left
    rw [List.take_append_eq_append_take, List.take_of_length_le h]
    exact isSubAt_append_self p (m.take (j - p.length))
  · right
    rw [List.take_append_eq_append_take,
      show j - p.length = 0 by omega]
    simp only [List.take_zero, List.append_nil]
    exact isSubAt_take_self p j

/-- C8 counterexample: the raw base URL `"v1"` resolves without
throwing, but to `"https:/"` — the trailing `/v1` strip consumed one
of the scheme's slashes, so the result does not begin with a URI
scheme as the claim requires. -/
theorem createAIClient_scheme_counterexample :
    createAIClient (some "v1") = some "https:/" ∧
    isSubAt "http://".data (lowerL "https:/".data) = false ∧
    isSubAt "https://".data (lowerL "https:/".data) = false :=
  ⟨rfl, by decide, by decide⟩

/-- Helper: the normalization pipeline's output lower-cases to a list
that starts with one of the two schemes or is an initial segment of
one. -/
theorem normalizePipeline_scheme_shape (t0 : List Char) :
    isSubAt "http://".data (lowerL (normalizePipeline t0)) = true ∨
    isSubAt "https://".data (lowerL (normalizePipeline t0)) = true ∨
    isSubAt (lowerL (normalizePipeline t0)) "http://".data = true ∨
    isSubAt (lowerL (normalizePipeline t0)) "https://".data = true := by
  obtain ⟨j, hj⟩ := normalizePipeline_is_take t0
  rw [hj]
  have hmaps :
      lowerL ((if schemeTest t0 then t0 else "https://".data ++ t0).take j) =
        (lowerL (if schemeTest t0 then t0 else "https://".data ++ t0)).take j := by
    unfold lowerL
    rw [List.map_take]
  rw [hmaps]
  rcases lowered_scheme_decomp t0 with ⟨m, hm⟩ | ⟨m, hm⟩
  · rw [hm]
    rcases take_scheme_cases "http://".data m j with h | h
    · exact .inl h
    · exact .inr (.inr (.inl h))
  · rw [hm]
    rcases take_scheme_cases "https://".data m j with h | h
    · exact .inr (.inl h)
    · exact .inr (.inr (.inr h))

/-- C8 amended: resolution is a total function (never throws); the
effective base URL is absent for an absent or empty raw URL and the
empty string for a whitespace-only one; otherwise the result — the
trimmed input with `https://` prefixed when the case-insensitive
scheme test fails, one trailing slash stripped, then a trailing
`/v1beta` and `/v1` segment stripped — lower-cases to a string that
either begins with `http://` or `https://`, or is an initial segment
of one of those schemes (e.g. `https:/`, arising for degenerate inputs
such as `v1`, where the version strip cuts into the scheme). -/
theorem createAIClient_scheme_shape (baseUrl : Option String) :
    createAIClient baseUrl = none ∨ createAIClient baseUrl = some "" ∨
    ∃ l : List Char, createAIClient baseUrl = some (String.mk l) ∧
      (isSubAt "http://".data (lowerL l) = true ∨
       isSubAt "https://".data (lowerL l) = true ∨
       isSubAt (lowerL l) "http://".data = true ∨
       isSubAt (lowerL l) "https://".data = true) := by
  cases baseUrl with
  | none => exact .inl rfl
  | some b =>
    by_cases hb : b = ""
    · exact .inl (by simp [createAIClient, hb])
    · by_cases ht : (jsTrim b.data).isEmpty = true
      · exact .inr (.inl (by simp [createAIClient, hb, ht]))
      · exact .inr (.inr ⟨normalizePipeline (jsTrim b.data),
          by simp [createAIClient, hb, ht],
          normalizePipeline_scheme_shape (jsTrim b.data)⟩)

/-! ## Theorems: concurrency limiter (claims C7 and C10)

The queue invariant ties the `active` counter to the running multiset,
bounds it by the configured concurrency, keeps enough pending timers to
eventually drain a nonempty wait list, and conserves tasks: every
enqueued identifier is waiting, running, or settled. -/

def QInv (C : Nat) (s : QueueState) : Prop :=
  s.active = s.running.length ∧
  s.active ≤ C ∧
  (s.waiting ≠ [] → C ≤ s.active + s.timers) ∧
  s.enqueuedIds.Perm (s.waiting ++ s.running ++ s.settled.map Prod.fst)

theorem qInit_inv (C : Nat) : QInv C qInit :=
  ⟨rfl, Nat.zero_le C, fun h => absurd rfl h, by simp [qInit]⟩

/-- Helper rearrangements of task multisets. -/
theorem msRearrangeEnqRun (W R S T : Multiset Nat) :
    W + R + S + T = W + (R + T) + S := by abel

theorem msRearrangeEnqWait (W R S T : Multiset Nat) :
    W + R + S + T = W + T + R + S := by abel

theorem msRearrangeComplete (W R S : Multiset Nat) (t : Nat) (ht : t ∈ R) :
    W + R + S = W + R.erase t + (S + {t}) := by
  conv_lhs => rw [← Multiset.cons_erase ht]
  rw [← Multiset.singleton_add]
  abel

theorem msRearrangeDispatch (W R S : Multiset Nat) (t : Nat) :
    {t} + W + R + S = W + (R + {t}) + S := by abel

/-- The queue invariant is preserved by every enabled event. -/
theorem qstep_inv {C : Nat} {s s' : QueueState} {e : QEvent}
    (hinv : QInv C s) (hstep : qstep C s e = some s') : QInv C s' := by
  obtain ⟨a, w, r, sf, tm, enq⟩ := s
  obtain ⟨h1, h2, h3, h4⟩ := hinv
  simp only at h1 h2 h3 h4
  cases e with
  | enqueue tid =>
    simp only [qstep] at hstep
    by_cases hlt : a < C
    · rw [if_pos hlt] at hstep
      cases hstep
      refine ⟨by simp [h1], by dsimp only; omega,
        fun hw => by have := h3 hw; dsimp only; omega, ?_⟩
      rw [← Multiset.coe_eq_coe] at h4 ⊢
      simp only [← Multiset.coe_add] at h4 ⊢
      rw [h4]
      exact msRearrangeEnqRun _ _ _ _
    · rw [if_neg hlt] at hstep
      cases hstep
      refine ⟨h1, h2, fun _ => by dsimp only; omega, ?_⟩
      rw [← Multiset.coe_eq_coe] at h4 ⊢
      simp only [← Multiset.coe_add] at h4 ⊢
      rw [h4]
      exact msRearrangeEnqWait _ _ _ _
  | complete tid ok =>
    simp only [qstep] at hstep
    by_cases hmem : tid ∈ r
    · rw [if_pos hmem] at hstep
      cases hstep
      have hpos : 0 < r.length := List.length_pos_of_mem hmem
      have hlen : (r.erase tid).length = r.length - 1 :=
        List.length_erase_of_mem hmem
      refine ⟨by simp [hlen, h1], by dsimp only; omega,
        fun hw => by have := h3 hw; dsimp only; omega, ?_⟩
      rw [← Multiset.coe_eq_coe] at h4 ⊢
      simp only [List.map_append, List.map_cons, List.map_nil,
        ← Multiset.coe_add, ← Multiset.coe_erase] at h4 ⊢
      rw [h4]
      exact msRearrangeComplete _ _ _ tid (Multiset.mem_coe.mpr hmem)
    · rw [if_neg hmem] at hstep
      cases hstep
  | tick =>
    simp only [qstep] at hstep
    by_cases htm : tm = 0
    · rw [if_pos htm] at hstep
      cases hstep
    · rw [if_neg htm] at hstep
      by_cases hlt : a < C
      · rw [if_pos hlt] at hstep
        cases hw : w with
        | nil =>
          rw [hw] at hstep
          cases hstep
          subst hw
          exact ⟨h1, h2, fun hne => absurd rfl hne, by simpa using h4⟩
        | cons w0 ws =>
          rw [hw] at hstep
          cases hstep
          subst hw
          refine ⟨by simp [h1], by dsimp only; omega,
            fun hne => by have := h3 (by simp); dsimp only; omega, ?_⟩
          rw [← Multiset.coe_eq_coe] at h4 ⊢
          simp only [← Multiset.coe_add] at h4 ⊢
          have hco : ((w0 :: ws : List Nat) : Multiset Nat) =
              {w0} + (ws : Multiset Nat) := by
            rw [← Multiset.cons_coe, ← Multiset.singleton_add]
          rw [hco] at h4
          rw [h4]
          exact msRearrangeDispatch _ _ _ _
      · rw [if_neg hlt] at hstep
        cases hstep
        refine ⟨h1, h2, fun hne => by have := h3 hne; dsimp only; omega, h4⟩

/-- The queue invariant holds in every state reachable by a valid
event trace. -/
theorem qrun_inv {C : Nat} (es : List QEvent) :
    ∀ s s', QInv C s → qrun C s es = some s' → QInv C s' := by
  induction es with
  | nil =>
    intro s s' h hr
    cases hr
    exact h
  | cons e es ih =>
    intro s s' h hr
    simp only [qrun] at hr
    cases hq : qstep C s e with
    | none =>
      simp only [hq] at hr
      exact Option.noConfusion hr
    | some s1 =>
      simp only [hq] at hr
      exact ih s1 s' (qstep_inv h hq) hr

/-- C7: for a queue with concurrency bound `C ≥ 1` and any valid event
trace over `K > C` enqueued tasks, (1) the number of active tasks never
exceeds `C` (every instant is the end of some trace prefix, and the
bound holds at the end of every valid trace); (2) dispatch is FIFO —
whenever a scheduled `next()` fires with a free slot and a nonempty
wait list, exactly the head of the wait list starts running; (3) once
the system is quiescent (no running task, no pending timer), the wait
list is empty and the settled tasks — each carrying its own outcome —
are exactly the `K` enqueued tasks. -/
theorem requestQueue_bound_fifo_settlement (C K : Nat) (es : List QEvent)
    (s : QueueState) (hC : 1 ≤ C) (hK : C < K)
    (hrun : qrun C qInit es = some s) (hKeq : s.enqueuedIds.length = K) :
    s.active ≤ C ∧
    (∀ w ws, s.waiting = w :: ws → s.timers ≠ 0 → s.active < C →
        qstep C s QEvent.tick =
          some { s with
                 active := s.active + 1,
                 running := s.running ++ [w],
                 waiting := ws,
                 timers := s.timers - 1 }) ∧
    (quiescent s → s.waiting = [] ∧
        (s.settled.map Prod.fst).Perm s.enqueuedIds ∧
        s.settled.length = K) := by
  obtain ⟨h1, h2, h3, h4⟩ := qrun_inv es qInit s (qInit_inv C) hrun
  refine ⟨h2, ?_, ?_⟩
  · intro w ws hw htm hlt
    simp only [qstep, if_neg htm, if_pos hlt, hw]
  · intro hq
    obtain ⟨hr0, ht0⟩ := hq
    have ha : s.active = 0 := by rw [h1, hr0]; rfl
    have hwempty : s.waiting = [] := by
      by_contra hne
      have := h3 hne
      omega
    have hperm : (s.settled.map Prod.fst).Perm s.enqueuedIds := by
      have h5 := h4
      rw [hwempty, hr0] at h5
      simpa using h5.symm
    refine ⟨hwempty, hperm, ?_⟩
    have hlen := hperm.length_eq
    rw [hKeq] at hlen
    simpa using hlen

/-- Witness for C7: `C = 1`, `K = 2`; task 0 runs at once, task 1
waits, each completion schedules a timer, the first timer dispatches
task 1, and the final state is quiescent with both tasks settled (task
1 rejecting) in enqueue order. -/
theorem requestQueue_bound_fifo_settlement_witness :
    (⟨0, [], [], [(0, true), (1, false)], 0, [0, 1]⟩ :
      QueueState).active ≤ 1 ∧
    (([(0, true), (1, false)] : List (Nat × Bool)).map Prod.fst).Perm
      [0, 1] ∧
    ([(0, true), (1, false)] : List (Nat × Bool)).length = 2 := by
  have h := requestQueue_bound_fifo_settlement 1 2
    [.enqueue 0, .enqueue 1, .complete 0 true, .tick, .complete 1 false,
     .tick]
    ⟨0, [], [], [(0, true), (1, false)], 0, [0, 1]⟩
    (by decide) (by decide) rfl rfl
  exact ⟨h.1, (h.2.2 ⟨rfl, rfl⟩).2.1, (h.2.2 ⟨rfl, rfl⟩).2.2⟩

/-- C10: both exported operations either reject immediately or enqueue
on the single module-level queue `apiQueue`, which is constructed with
concurrency `1` and `1500` ms release spacing; and under concurrency
`1` every state reachable by a valid event trace has at most one
active task — hence at most one provider operation, and so at most one
`window.fetch` override, in flight at any instant. -/
theorem apiQueue_shared_single_concurrency :
    apiQueue = ⟨1, 1500⟩ ∧
    (∀ img key b,
        analyzeFrameWithGemini img key b = .rejected missingCredsMsg ∨
        analyzeFrameWithGemini img key b = .enqueued apiQueue 5 2000) ∧
    (∀ p key b,
        generateImageWithNanoBanana p key b = .rejected missingCredsMsg ∨
        generateImageWithNanoBanana p key b = .enqueued apiQueue 3 2000) ∧
    (∀ es s, qrun apiQueue.concurrency qInit es = some s →
        s.active ≤ 1) := by
  refine ⟨rfl, ?_, ?_, ?_⟩
  · intro img key b
    unfold analyzeFrameWithGemini
    split
    · exact .inl rfl
    · exact .inr rfl
  · intro p key b
    unfold generateImageWithNanoBanana
    split
    · exact .inl rfl
    · exact .inr rfl
  · intro es s h
    exact (qrun_inv es qInit s (qInit_inv 1) h).2.1

/-- Witness for C10 at the empty trace. -/
theorem apiQueue_shared_single_concurrency_witness : qInit.active ≤ 1 :=
  apiQueue_shared_single_concurrency.2.2.2 [] qInit rfl

end WeiniLapian
